import Mathlib

/-!
Verification of the QueryLens demo application (`app/main.py`).

The application has three parts: a database loader that writes an uploaded
blob to a fixed temporary file and opens a connection to it, a schema
extractor built on the SQLite catalog (`sqlite_master`) and
`PRAGMA table_info`, and a stub query generator that echoes the user's text
into a SQL comment in front of a fixed `SELECT`.

The SQLite engine itself is an external dependency; its catalog reads and
its execution of the one generated statement shape are modelled explicitly
below, each with a doc comment saying which documented engine behaviour the
definition reflects.  Everything else is a direct translation of the Python
source.
-/

namespace QueryLens

/-- One row of `PRAGMA table_info`, with the tuple positions used by the
source: `col[0] = cid`, `col[1] = name`, `col[2] = type`, `col[3] = notnull`,
`col[4] = dflt_value`, `col[5] = pk`. -/
structure Column where
  cid : Nat
  name : String
  ctype : String
  notnull : Nat
  dflt : Option String
  pk : Nat
  deriving DecidableEq

/-- An entry of the SQLite catalog (`sqlite_master`): its kind
(`"table"`, `"view"`, `"index"`, ...), its name, its declared columns and,
for tables, its rows (each row a list of cell values rendered as strings). -/
structure DbObject where
  kind : String
  name : String
  columns : List Column
  rows : List (List String)
  deriving DecidableEq

/-- A well-formed SQLite database, abstracted to its catalog content. -/
structure Db where
  objects : List DbObject
  deriving DecidableEq

/-- The value stored per table by `get_schema`: a dict from column name to
its declared type (the source stores `{'type': col[2]}`; the single-field
record is flattened to the type string) and the `primary_keys` list. -/
structure TableEntry where
  columns : List (String × String)
  primary_keys : List String
  deriving DecidableEq

/-- The schema dict built by `get_schema`: an insertion-ordered mapping from
table name to its `TableEntry`. -/
abbrev Schema := List (String × TableEntry)

/-- The `{query, explanation}` dict returned by
`SimpleNLP2SQL.generate_query`. -/
structure QueryResult where
  query : String
  explanation : String
  deriving DecidableEq

/-- Python dict assignment `d[k] = v`: replaces the value in place if the
key is present, otherwise appends the new binding at the end. -/
def dictInsert {α β : Type} [DecidableEq α] (d : List (α × β)) (k : α) (v : β) :
    List (α × β) :=
  if k ∈ d.map Prod.fst then d.map (fun p => if p.1 = k then (k, v) else p)
  else d ++ [(k, v)]

/-- Modelled from the engine (an external dependency): the result of
`SELECT name FROM sqlite_master WHERE type='table';` — the names of the
catalog entries of kind `"table"`, in catalog order. -/
def tableNamesOf (db : Db) : List String :=
  (db.objects.filter (fun o => o.kind = "table")).map (fun o => o.name)

/-- The catalog query as a stateful read on the connection: SQLite
documents it as read-only, so the database component is returned
unchanged. -/
def runCatalog (db : Db) : Db × List String :=
  (db, tableNamesOf db)

/-- Modelled from the engine (an external dependency): the rows of
`PRAGMA table_info(t)` — the declared columns of the object named `t`,
or no rows when no such object exists. -/
def pragmaTableInfo (db : Db) (t : String) : List Column :=
  match db.objects.find? (fun o => o.name = t) with
  | some o => o.columns
  | none => []

/-- The pragma as a stateful read on the connection: SQLite documents
`PRAGMA table_info` as read-only, so the database component is returned
unchanged. -/
def runTableInfo (db : Db) (t : String) : Db × List Column :=
  (db, pragmaTableInfo db t)

/-- The dict built for one table (`main.py` lines 64-67):
`'columns': {col[1]: {'type': col[2]} for col in columns}` and
`'primary_keys': [col[1] for col in columns if col[5]]`. -/
def mkTableEntry (cols : List Column) : TableEntry :=
  { columns := (cols.map (fun c => (c.name, c.ctype))).foldl
      (fun d p => dictInsert d p.1 p.2) [],
    primary_keys := (cols.filter (fun c => c.pk ≠ 0)).map (fun c => c.name) }

/-- `get_schema` (`main.py` lines 49-69): list the catalog's tables, then
for each table store the entry built from its `PRAGMA table_info` rows
under its name. -/
def get_schema (db : Db) : Schema :=
  (tableNamesOf db).foldl
    (fun s t => dictInsert s t (mkTableEntry (pragmaTableInfo db t))) []

/-- `get_schema` with the connection state threaded explicitly through each
`cursor.execute`: first the catalog query, then one `PRAGMA table_info` per
table, accumulating the schema dict. -/
def getSchemaRun (db : Db) : Db × Schema :=
  let r := runCatalog db
  r.2.foldl
    (fun acc t =>
      let q := runTableInfo acc.1 t
      (q.1, dictInsert acc.2 t (mkTableEntry q.2)))
    (r.1, [])

/-- `SimpleNLP2SQL.generate_query` (`main.py` lines 26-35): the stub echoes
the user text into a `--` comment in front of a fixed `SELECT`, with a
constant explanation; the `schema` parameter is never read. -/
def generate_query (user_input : String) (schema : Schema) : QueryResult :=
  { query := "-- Generated from: " ++ user_input ++
      "\nSELECT * FROM table_name LIMIT 5;",
    explanation :=
      "This is a basic query that selects all columns from the specified table." }

/-- Uploaded file contents, as raw bytes. -/
abbrev Bytes := List Nat

/-- The state the app keeps on disk: the content of the fixed temporary
file `temp_db.sqlite`, or `none` when it was never written. -/
structure FS where
  tempFile : Option Bytes
  deriving DecidableEq

/-- `load_database` (`main.py` lines 37-47): `None` input yields no
connection; otherwise the payload overwrites the fixed temporary file and
`sqlite3.connect` returns a handle to that path.  `sqlite3.connect` does
not read the file, so it succeeds regardless of the bytes. -/
def load_database (uploaded : Option Bytes) (fs : FS) : FS × Option Unit :=
  match uploaded with
  | none => (fs, none)
  | some b => (⟨some b⟩, some ())

/-- What the upload branch of `main` (`main.py` lines 78-120) shows:
the please-upload info box, the load-error box (lines 116-117), an
exception escaping the script uncaught, or the extracted schema. -/
inductive LoadOutcome where
  | infoUpload : LoadOutcome
  | errorLoading : LoadOutcome
  | uncaught : String → LoadOutcome
  | schemaShown : Schema → LoadOutcome
  deriving DecidableEq

/-- The upload flow of `main`, parameterised by the engine's `parse`
(which bytes form a well-formed database): with no upload show the info
box; otherwise run `load_database`, show the load-error box when it
returned no connection, and otherwise run `get_schema`, whose first
`cursor.execute` raises `sqlite3.DatabaseError` — caught nowhere in
`main` — when the temporary file is not a database. -/
def mainLoadStep (parse : Bytes → Option Db) (uploaded : Option Bytes)
    (fs : FS) : FS × LoadOutcome :=
  match uploaded with
  | none => (fs, .infoUpload)
  | some b =>
    let r := load_database (some b) fs
    match r.2 with
    | none => (r.1, .errorLoading)
    | some _ =>
      match r.1.tempFile.bind parse with
      | none => (r.1, .uncaught "file is not a database")
      | some db => (r.1, .schemaShown (get_schema db))

/-- Split a character list into its lines, as the engine's tokenizer views
the statement text. -/
def splitLines : List Char → List (List Char)
  | [] => [[]]
  | c :: cs =>
    if c = '\n' then [] :: splitLines cs
    else
      match splitLines cs with
      | [] => [[c]]
      | l :: ls => (c :: l) :: ls

/-- A SQL `--` line comment: the line starts with two dashes. -/
def isCommentLine (l : List Char) : Bool :=
  l.take 2 == ['-', '-']

/-- The fixed `SELECT` emitted by the stub generator. -/
def stubSelect : List Char :=
  "SELECT * FROM table_name LIMIT 5;".data

/-- Modelled from the engine (an external dependency):
`pd.read_sql_query` / `cursor.execute` on a single statement.  `--` line
comments are stripped; the one statement shape the app ever generates,
`SELECT * FROM table_name LIMIT 5;`, reads at most 5 rows of the table
named `table_name` and fails with SQLite's `no such table` error when that
table is absent; any other statement text is reported as an engine error
(views and non-stub statements are not given finer semantics, as no code
path of the app produces them). -/
def execStmt (db : Db) (q : List Char) : Except String (List (List String)) :=
  let code := (splitLines q).filter (fun l => !(isCommentLine l))
  if code = [stubSelect] then
    match db.objects.find? (fun o => o.name = "table_name") with
    | some o =>
      if o.kind = "table" then .ok (o.rows.take 5)
      else .error "no such table: table_name"
    | none => .error "no such table: table_name"
  else .error "unrecognized statement"

/-- What the Execute Query button produces: a rendered result table, the
`st.error` message from the `except` branch, or an uncaught exception. -/
inductive ExecOutcome where
  | results : List (List String) → ExecOutcome
  | errorMessage : String → ExecOutcome
  | crashed : String → ExecOutcome
  deriving DecidableEq

/-- The Execute Query handler (`main.py` lines 108-114): run the query;
every exception is caught and rendered as
`st.error(f"Error executing query: {str(e)}")`. -/
def executeQueryStep (db : Db) (q : String) : ExecOutcome :=
  match execStmt db q.data with
  | .ok rows => .results rows
  | .error e => .errorMessage ("Error executing query: " ++ e)

/-- A one-table database used to evaluate the theorems on concrete input:
a `users` table whose single-column primary key is `id`. -/
def usersTable : DbObject :=
  { kind := "table", name := "users",
    columns := [⟨0, "id", "INTEGER", 1, none, 1⟩, ⟨1, "email", "TEXT", 0, none, 0⟩],
    rows := [["1", "a"], ["2", "b"]] }

/-- A concrete database holding only `usersTable`. -/
def usersDb : Db := ⟨[usersTable]⟩

/-- A table literally named `table_name`, with six rows, so that the stub
query finds it and the `LIMIT 5` matters. -/
def stubTable : DbObject :=
  { kind := "table", name := "table_name",
    columns := [⟨0, "id", "INTEGER", 0, none, 0⟩],
    rows := [["1"], ["2"], ["3"], ["4"], ["5"], ["6"]] }

/-- A concrete database holding only `stubTable`. -/
def stubDb : Db := ⟨[stubTable]⟩

/-- A concrete database whose catalog has an entry, but none of kind
`"table"`. -/
def viewOnlyDb : Db := ⟨[{ kind := "view", name := "v", columns := [], rows := [] }]⟩

/-- `takeWhile` passes over a block of elements that all satisfy the
predicate. -/
theorem takeWhile_append_of_all {α : Type} (p : α → Bool) :
    ∀ (l1 l2 : List α), (∀ a ∈ l1, p a = true) →
      (l1 ++ l2).takeWhile p = l1 ++ l2.takeWhile p := by
  intro l1
  induction l1 with
  | nil => intro l2 _; rfl
  | cons a l ih =>
    intro l2 h
    rw [List.cons_append, List.takeWhile_cons_of_pos (h a (List.mem_cons_self a l))]
    rw [ih l2 (fun x hx => h x (List.mem_cons_of_mem a hx)), List.cons_append]

/-- Splitting a text that starts with a newline-free line detaches that
line. -/
theorem splitLines_append_newline :
    ∀ (l cs : List Char), '\n' ∉ l →
      splitLines (l ++ '\n' :: cs) = l :: splitLines cs := by
  intro l
  induction l with
  | nil => intro cs _; simp [splitLines]
  | cons c l ih =>
    intro cs h
    have hc : c ≠ '\n' := fun he => h (by simp [he])
    rw [List.cons_append]
    simp only [splitLines]
    rw [if_neg hc, ih cs (fun hm => h (List.mem_cons_of_mem c hm))]

/-- Inserting a fresh key appends the binding. -/
theorem dictInsert_of_not_mem {α β : Type} [DecidableEq α] (d : List (α × β))
    (k : α) (v : β) (h : k ∉ d.map Prod.fst) :
    dictInsert d k v = d ++ [(k, v)] := by
  simp [dictInsert, h]

/-- Folding dict insertion over bindings with globally fresh keys just
appends them in order. -/
theorem foldl_dictInsert_eq {α β : Type} [DecidableEq α] (l : List (α × β)) :
    ∀ acc : List (α × β), (acc.map Prod.fst ++ l.map Prod.fst).Nodup →
      l.foldl (fun d p => dictInsert d p.1 p.2) acc = acc ++ l := by
  induction l with
  | nil => intro acc _; simp
  | cons p l ih =>
    intro acc h
    have hk : p.1 ∉ acc.map Prod.fst := by
      rcases List.nodup_append.mp (by simpa using h) with ⟨_, _, hdisj⟩
      exact fun hmem => hdisj hmem (by simp)
    rw [List.foldl_cons, dictInsert_of_not_mem acc p.1 p.2 hk]
    rw [ih (acc ++ [(p.1, p.2)]) (by simpa [List.append_assoc] using h)]
    simp

/-- Building a dict from bindings with distinct keys reproduces them. -/
theorem dictOfPairs_eq {α β : Type} [DecidableEq α] (l : List (α × β))
    (h : (l.map Prod.fst).Nodup) :
    l.foldl (fun d p => dictInsert d p.1 p.2) [] = l := by
  simpa using foldl_dictInsert_eq l [] (by simpa using h)

/-- With distinct table names, `get_schema` is the ordered table list with
its entries. -/
theorem get_schema_eq_map (db : Db) (h : (tableNamesOf db).Nodup) :
    get_schema db =
      (tableNamesOf db).map (fun t => (t, mkTableEntry (pragmaTableInfo db t))) := by
  have hcomp : (Prod.fst ∘ fun t : String => (t, mkTableEntry (pragmaTableInfo db t)))
      = id := funext (fun t => rfl)
  have hkeys :
      (((tableNamesOf db).map
          (fun t => (t, mkTableEntry (pragmaTableInfo db t)))).map Prod.fst).Nodup := by
    simpa [List.map_map, hcomp] using h
  have := dictOfPairs_eq
    ((tableNamesOf db).map (fun t => (t, mkTableEntry (pragmaTableInfo db t)))) hkeys
  rw [List.foldl_map] at this
  exact this

/-- With distinct object names, `find?` by name retrieves the member
itself. -/
theorem find?_name_of_mem :
    ∀ (objs : List DbObject) (o : DbObject),
      (objs.map (fun x => x.name)).Nodup → o ∈ objs →
      objs.find? (fun x => x.name = o.name) = some o := by
  intro objs
  induction objs with
  | nil => intro o _ ho; cases ho
  | cons x xs ih =>
    intro o hn ho
    rcases List.mem_cons.mp ho with rfl | hmem
    · rw [List.find?_cons_of_pos _ (by simp)]
    · have hx : x.name ≠ o.name := by
        intro he
        have hmemname : o.name ∈ xs.map (fun x => x.name) :=
          List.mem_map.mpr ⟨o, hmem, rfl⟩
        rw [List.map_cons] at hn
        exact (List.nodup_cons.mp hn).1 (he ▸ hmemname)
      rw [List.find?_cons_of_neg _ (by simp [hx])]
      exact ih o (by rw [List.map_cons] at hn; exact (List.nodup_cons.mp hn).2) hmem

/-- With distinct object names, the pragma returns the member's declared
columns. -/
theorem pragmaTableInfo_eq (db : Db) (o : DbObject)
    (hn : (db.objects.map (fun x => x.name)).Nodup) (ho : o ∈ db.objects) :
    pragmaTableInfo db o.name = o.columns := by
  unfold pragmaTableInfo
  rw [find?_name_of_mem db.objects o hn ho]

/-- Looking a member up in the graph of a function evaluates the
function. -/
theorem lookup_map_of_mem {α β : Type} [BEq α] [LawfulBEq α] (f : α → β) :
    ∀ (l : List α) (t : α), t ∈ l →
      List.lookup t (l.map (fun x => (x, f x))) = some (f t) := by
  intro l
  induction l with
  | nil => intro t ht; cases ht
  | cons x xs ih =>
    intro t ht
    rw [List.map_cons]
    by_cases hx : t = x
    · subst hx
      simp [List.lookup]
    · have hbeq : (t == x) = false := beq_eq_false_iff_ne.mpr hx
      simp only [List.lookup, hbeq]
      exact ih t (List.mem_of_ne_of_mem hx ht)

/-- With distinct column names the per-table dict lists exactly the
declared columns. -/
theorem mkTableEntry_eq (cols : List Column)
    (h : (cols.map (fun c => c.name)).Nodup) :
    mkTableEntry cols =
      { columns := cols.map (fun c => (c.name, c.ctype)),
        primary_keys := (cols.filter (fun c => c.pk ≠ 0)).map (fun c => c.name) } := by
  unfold mkTableEntry
  congr 1
  have hcomp : (Prod.fst ∘ fun c : Column => (c.name, c.ctype))
      = fun c : Column => c.name := funext (fun c => rfl)
  exact dictOfPairs_eq _ (by simpa [List.map_map, hcomp] using h)

/-- The leading characters of the generated query are the two dashes of a
line comment, whatever follows the template's fixed text. -/
theorem take_two_dashes (t : List Char) :
    ("-- Generated from: ".data ++ t).take 2 = ['-', '-'] := by
  have h : "-- Generated from: ".data = '-' :: '-' :: " Generated from: ".data := by decide
  rw [h]; rfl

/-- C1: `generate_query` is pure and deterministic and its output depends
only on the user text: any two schema mappings produce the identical
`{query, explanation}` pair, so the schema argument has no influence on the
result. -/
theorem c1_generate_query_schema_independent (input : String) (s1 s2 : Schema) :
    generate_query input s1 = generate_query input s2 := rfl

/-- C2 counterexample: for the input `"a\nb"`, which contains a newline,
the input text does not lie inside the query's leading SQL line comment —
the part after the newline escapes the comment — so the claim as stated
(for every user_input string) is false. -/
theorem c2_newline_input_escapes_comment :
    ¬ ("a\nb".data <:+:
        (generate_query "a\nb" []).query.data.takeWhile (fun c => c != '\n')) := by
  decide

/-- C2 (amended): for every user input the query contains the input text
verbatim and the explanation is the fixed constant; and whenever the input
contains no newline, the query starts with a `--` line comment and the
input lies entirely inside that comment (the leading line of the query). -/
theorem c2_query_embeds_input (input : String) (s : Schema) :
    (input.data <:+: (generate_query input s).query.data) ∧
    (generate_query input s).explanation =
      "This is a basic query that selects all columns from the specified table." ∧
    ('\n' ∉ input.data →
      (generate_query input s).query.data.take 2 = ['-', '-'] ∧
      input.data <:+:
        (generate_query input s).query.data.takeWhile (fun c => c != '\n')) := by
  have hq : (generate_query input s).query.data
      = ("-- Generated from: ".data ++ input.data) ++
        "\nSELECT * FROM table_name LIMIT 5;".data := rfl
  refine ⟨?_, rfl, ?_⟩
  · exact ⟨"-- Generated from: ".data,
      "\nSELECT * FROM table_name LIMIT 5;".data, hq.symm⟩
  · intro hn
    constructor
    · rw [hq]
      have h2 : ("-- Generated from: ".data ++ input.data) ++
          "\nSELECT * FROM table_name LIMIT 5;".data
          = "-- Generated from: ".data ++
            (input.data ++ "\nSELECT * FROM table_name LIMIT 5;".data) := by
        rw [List.append_assoc]
      rw [h2]
      exact take_two_dashes _
    · rw [hq]
      have hall : ∀ a ∈ ("-- Generated from: ".data ++ input.data),
          (a != '\n') = true := by
        intro a ha
        rcases List.mem_append.mp ha with h1 | h2
        · have hpre : ∀ a ∈ "-- Generated from: ".data, (a != '\n') = true := by
            decide
          exact hpre a h1
        · exact bne_iff_ne.mpr (fun he => hn (he ▸ h2))
      rw [takeWhile_append_of_all _ _ _ hall]
      have hsuf : ("\nSELECT * FROM table_name LIMIT 5;".data).takeWhile
          (fun c => c != '\n') = [] := by decide
      rw [hsuf, List.append_nil]
      exact (List.suffix_append _ _).isInfix

/-- C2 witness: on the concrete newline-free input `"show all users"` the
hypotheses hold and the input sits inside the query's leading comment. -/
theorem c2_query_embeds_input_witness :
    ('\n' ∉ "show all users".data) ∧
    ("show all users".data <:+:
      (generate_query "show all users" []).query.data.takeWhile (fun c => c != '\n')) :=
  ⟨by decide, ((c2_query_embeds_input "show all users" []).2.2 (by decide)).2⟩

/-- C6: `load_database` with a present payload overwrites the fixed
temporary file with exactly that payload, whatever was there before; after
a second upload the temporary file holds only the second payload, so the
schema extracted from it is determined by the second file alone, with no
trace of the first. -/
theorem c6_temp_file_reflects_latest_upload (fs : FS) (b1 b2 : Bytes)
    (parse : Bytes → Option Db) :
    (load_database (some b1) fs).1.tempFile = some b1 ∧
    (load_database (some b2) (load_database (some b1) fs).1).1.tempFile = some b2 ∧
    ((load_database (some b2) (load_database (some b1) fs).1).1.tempFile.bind
        parse).map get_schema = (parse b2).map get_schema :=
  ⟨rfl, rfl, rfl⟩

/-- C9: `get_schema` only reads: threading the connection state through its
catalog `SELECT` and its per-table `PRAGMA table_info` calls returns the
database unchanged, together with the very schema `get_schema` computes. -/
theorem c9_get_schema_preserves_database (db : Db) :
    getSchemaRun db = (db, get_schema db) := by
  have haux : ∀ (names : List String) (s : Schema),
      names.foldl
        (fun acc t =>
          let q := runTableInfo acc.1 t
          (q.1, dictInsert acc.2 t (mkTableEntry q.2)))
        (db, s)
      = (db, names.foldl
          (fun s t => dictInsert s t (mkTableEntry (pragmaTableInfo db t))) s) := by
    intro names
    induction names with
    | nil => intro s; rfl
    | cons t ts ih => intro s; rw [List.foldl_cons, List.foldl_cons]; exact ih _
  unfold getSchemaRun get_schema runCatalog
  exact haux (tableNamesOf db) []

/-- C10: on a well-formed database whose catalog holds no entity of kind
`"table"`, `get_schema` succeeds and returns the empty mapping. -/
theorem c10_empty_catalog_gives_empty_schema (db : Db)
    (h : ∀ o ∈ db.objects, o.kind ≠ "table") : get_schema db = [] := by
  have hfilter : db.objects.filter (fun o => o.kind = "table") = [] :=
    List.filter_eq_nil_iff.mpr (fun o ho => by simpa using h o ho)
  have ht : tableNamesOf db = [] := by
    unfold tableNamesOf
    rw [hfilter]
    rfl
  unfold get_schema
  rw [ht]
  rfl

/-- C10 witness: a database whose catalog holds only a view yields the
empty schema. -/
theorem c10_empty_catalog_witness : get_schema viewOnlyDb = [] :=
  c10_empty_catalog_gives_empty_schema viewOnlyDb (by decide)

/-- C3: on a well-formed database (distinct object names, distinct column
names per object), `get_schema` has exactly one entry per catalog entity of
kind `"table"` — views and the rest excluded — and each table's entry lists
exactly the declared columns with their declared type strings, in order. -/
theorem c3_get_schema_matches_catalog (db : Db)
    (hobj : (db.objects.map (fun o => o.name)).Nodup)
    (hcols : ∀ o ∈ db.objects, (o.columns.map (fun c => c.name)).Nodup) :
    (get_schema db).map Prod.fst =
      (db.objects.filter (fun o => o.kind = "table")).map (fun o => o.name) ∧
    ∀ o ∈ db.objects, o.kind = "table" →
      List.lookup o.name (get_schema db) =
        some { columns := o.columns.map (fun c => (c.name, c.ctype)),
               primary_keys :=
                 (o.columns.filter (fun c => c.pk ≠ 0)).map (fun c => c.name) } := by
  have hnames : (tableNamesOf db).Nodup :=
    List.Nodup.sublist (List.Sublist.map _ (List.filter_sublist _)) hobj
  have hmap := get_schema_eq_map db hnames
  constructor
  · rw [hmap, List.map_map]
    have hcomp : (Prod.fst ∘ fun t : String => (t, mkTableEntry (pragmaTableInfo db t)))
        = id := funext (fun t => rfl)
    rw [hcomp, List.map_id]
    rfl
  · intro o ho hk
    have hmem : o.name ∈ tableNamesOf db :=
      List.mem_map.mpr ⟨o, List.mem_filter.mpr ⟨ho, by simp [hk]⟩, rfl⟩
    rw [hmap, lookup_map_of_mem _ _ _ hmem, pragmaTableInfo_eq db o hobj ho,
      mkTableEntry_eq o.columns (hcols o ho)]

/-- C3 witness: on the concrete one-table database the schema has the
single key `users`, whose entry lists exactly the declared columns with
their types. -/
theorem c3_get_schema_matches_catalog_witness :
    (get_schema usersDb).map Prod.fst = ["users"] ∧
    List.lookup "users" (get_schema usersDb) =
      some { columns := [("id", "INTEGER"), ("email", "TEXT")],
             primary_keys := ["id"] } := by
  have h := c3_get_schema_matches_catalog usersDb (by decide) (by decide)
  exact ⟨by rw [h.1]; rfl, h.2 usersTable (by decide) rfl⟩

/-- C4: a column name appears in a table's `primary_keys` exactly when its
`PRAGMA table_info` pk field is non-zero; in particular every non-zero-pk
column's name is listed (so a single-column primary key is listed), and a
table with no non-zero pk field gets the empty list. -/
theorem c4_primary_keys_iff_pk_nonzero (db : Db)
    (hobj : (db.objects.map (fun o => o.name)).Nodup) :
    ∀ o ∈ db.objects, o.kind = "table" →
      ∃ entry, List.lookup o.name (get_schema db) = some entry ∧
        (∀ cn, cn ∈ entry.primary_keys ↔ ∃ c ∈ o.columns, c.name = cn ∧ c.pk ≠ 0) ∧
        ((∀ c ∈ o.columns, c.pk = 0) → entry.primary_keys = []) ∧
        (∀ c ∈ o.columns, c.pk ≠ 0 → c.name ∈ entry.primary_keys) := by
  intro o ho hk
  have hnames : (tableNamesOf db).Nodup :=
    List.Nodup.sublist (List.Sublist.map _ (List.filter_sublist _)) hobj
  have hmem : o.name ∈ tableNamesOf db :=
    List.mem_map.mpr ⟨o, List.mem_filter.mpr ⟨ho, by simp [hk]⟩, rfl⟩
  have hpk : (mkTableEntry (pragmaTableInfo db o.name)).primary_keys
      = (o.columns.filter (fun c => c.pk ≠ 0)).map (fun c => c.name) := by
    rw [pragmaTableInfo_eq db o hobj ho]
    rfl
  refine ⟨mkTableEntry (pragmaTableInfo db o.name), ?_, ?_, ?_, ?_⟩
  · rw [get_schema_eq_map db hnames]
    exact lookup_map_of_mem _ _ _ hmem
  · intro cn
    rw [hpk]
    constructor
    · intro hmem2
      rcases List.mem_map.mp hmem2 with ⟨c, hc, rfl⟩
      rcases List.mem_filter.mp hc with ⟨hcin, hcpk⟩
      exact ⟨c, hcin, rfl, by simpa using hcpk⟩
    · rintro ⟨c, hcin, rfl, hcpk⟩
      exact List.mem_map.mpr ⟨c, List.mem_filter.mpr ⟨hcin, by simpa using hcpk⟩, rfl⟩
  · intro hall
    rw [hpk]
    have : o.columns.filter (fun c => c.pk ≠ 0) = [] :=
      List.filter_eq_nil_iff.mpr (fun c hc => by simp [hall c hc])
    rw [this]
    rfl
  · intro c hc hcpk
    rw [hpk]
    exact List.mem_map.mpr ⟨c, List.mem_filter.mpr ⟨hc, by simpa using hcpk⟩, rfl⟩

/-- C4 witness: on the concrete one-table database, `primary_keys` of
`users` is exactly `["id"]` (its single-column primary key), and the
membership characterisation holds there. -/
theorem c4_primary_keys_iff_pk_nonzero_witness :
    ((List.lookup "users" (get_schema usersDb)).map
        (fun e => e.primary_keys) = some ["id"]) ∧
    ∃ entry, List.lookup "users" (get_schema usersDb) = some entry ∧
      (∀ cn, cn ∈ entry.primary_keys ↔
        ∃ c ∈ usersTable.columns, c.name = cn ∧ c.pk ≠ 0) ∧
      ((∀ c ∈ usersTable.columns, c.pk = 0) → entry.primary_keys = []) ∧
      (∀ c ∈ usersTable.columns, c.pk ≠ 0 → c.name ∈ entry.primary_keys) :=
  ⟨by decide,
   c4_primary_keys_iff_pk_nonzero usersDb (by decide) usersTable (by decide) rfl⟩

/-- C5 counterexample: with bytes the engine rejects (`parse` is chosen to
reject everything), `load_database` still hands back a connection — the
load does not fail — and the upload flow ends in an uncaught exception from
`get_schema`'s first catalog query, not in the blocking load-error
message. -/
theorem c5_invalid_file_counterexample :
    (load_database (some [0]) ⟨none⟩).2 = some () ∧
    (mainLoadStep (fun _ => none) (some [0]) ⟨none⟩).2
      = .uncaught "file is not a database" ∧
    (mainLoadStep (fun _ => none) (some [0]) ⟨none⟩).2 ≠ LoadOutcome.errorLoading := by
  refine ⟨rfl, rfl, ?_⟩
  decide

/-- C5 (amended): for a present payload the load itself never fails —
`load_database` returns a connection regardless of the bytes — and when the
bytes are not a well-formed database, the failure surfaces as an uncaught
`sqlite3.DatabaseError` from `get_schema`'s first catalog query; the
blocking load-error message of `main` is unreachable for any upload. -/
theorem c5_invalid_file_uncaught (parse : Bytes → Option Db) (b : Bytes) (fs : FS)
    (h : parse b = none) :
    (load_database (some b) fs).2 = some () ∧
    (mainLoadStep parse (some b) fs).2 = .uncaught "file is not a database" ∧
    ∀ (u : Option Bytes) (fs2 : FS),
      (mainLoadStep parse u fs2).2 ≠ LoadOutcome.errorLoading := by
  have step_some : ∀ (b2 : Bytes) (fs2 : FS),
      mainLoadStep parse (some b2) fs2 =
        (⟨some b2⟩, match parse b2 with
          | none => .uncaught "file is not a database"
          | some db => .schemaShown (get_schema db)) := by
    intro b2 fs2
    cases hp : parse b2 <;>
      simp [mainLoadStep, load_database, hp]
  refine ⟨rfl, ?_, ?_⟩
  · rw [step_some b fs, h]
  · intro u fs2
    cases u with
    | none => exact fun hc => LoadOutcome.noConfusion hc
    | some b2 =>
      rw [step_some b2 fs2]
      cases parse b2 with
      | none => exact fun hc => LoadOutcome.noConfusion hc
      | some db => exact fun hc => LoadOutcome.noConfusion hc

/-- C5 witness: a concrete all-rejecting engine, payload and prior file
state satisfying the hypothesis, with the amended behaviour evaluated. -/
theorem c5_invalid_file_uncaught_witness :
    (mainLoadStep (fun _ => none) (some [9]) ⟨some [1]⟩).2
      = .uncaught "file is not a database" ∧
    (mainLoadStep (fun _ => none) none ⟨some [1]⟩).2 ≠ LoadOutcome.errorLoading :=
  ⟨(c5_invalid_file_uncaught (fun _ => none) [9] ⟨some [1]⟩ rfl).2.1,
   (c5_invalid_file_uncaught (fun _ => none) [9] ⟨some [1]⟩ rfl).2.2 none ⟨some [1]⟩⟩

/-- Executing the generated query: for a newline-free input, the engine
strips the leading comment line and is left with exactly the fixed stub
`SELECT`, whose outcome is decided by the presence of a table named
`table_name`. -/
theorem execStmt_genQuery (db : Db) (input : String) (s : Schema)
    (hn : '\n' ∉ input.data) :
    execStmt db (generate_query input s).query.data =
      match db.objects.find? (fun o => o.name = "table_name") with
      | some o =>
        if o.kind = "table" then Except.ok (o.rows.take 5)
        else Except.error "no such table: table_name"
      | none => Except.error "no such table: table_name" := by
  have h1 : (generate_query input s).query.data
      = ("-- Generated from: ".data ++ input.data) ++ '\n' :: stubSelect := rfl
  have h3 : '\n' ∉ ("-- Generated from: ".data ++ input.data) := by
    intro hm
    rcases List.mem_append.mp hm with hm1 | hm2
    · exact absurd hm1 (by decide)
    · exact hn hm2
  have h4 : splitLines (("-- Generated from: ".data ++ input.data) ++ '\n' :: stubSelect)
      = ("-- Generated from: ".data ++ input.data) :: splitLines stubSelect :=
    splitLines_append_newline _ _ h3
  have h5 : splitLines stubSelect = [stubSelect] := by decide
  have h6 : isCommentLine ("-- Generated from: ".data ++ input.data) = true := by
    unfold isCommentLine
    rw [take_two_dashes input.data]
    rfl
  have h7 : isCommentLine stubSelect = false := by decide
  have h8 : ((("-- Generated from: ".data ++ input.data) :: [stubSelect]).filter
      (fun l => !(isCommentLine l))) = [stubSelect] := by
    rw [List.filter_cons, h6, List.filter_cons, h7]
    rw [if_neg (by decide), if_pos (by decide)]
    rfl
  unfold execStmt
  rw [h1, h4, h5, h8]
  simp

/-- C7: the Execute Query path catches every execution error — the outcome
is always either a result table or the inline `st.error` message, never an
uncaught crash — and executing the generated stub query against a database
with no table named `table_name` is surfaced as exactly that non-fatal
message. -/
theorem c7_execution_errors_caught (db : Db) (q : String) :
    ((∃ rows, executeQueryStep db q = .results rows) ∨
     (∃ e, executeQueryStep db q = .errorMessage e)) ∧
    (∀ e, executeQueryStep db q ≠ ExecOutcome.crashed e) ∧
    (∀ (input : String) (s : Schema), '\n' ∉ input.data →
      db.objects.find? (fun o => o.name = "table_name") = none →
      executeQueryStep db (generate_query input s).query =
        .errorMessage "Error executing query: no such table: table_name") := by
  refine ⟨?_, ?_, ?_⟩
  · unfold executeQueryStep
    cases execStmt db q.data with
    | ok rows => exact Or.inl ⟨rows, rfl⟩
    | error e => exact Or.inr ⟨"Error executing query: " ++ e, rfl⟩
  · intro e
    unfold executeQueryStep
    cases execStmt db q.data with
    | ok rows => exact fun hc => ExecOutcome.noConfusion hc
    | error e2 => exact fun hc => ExecOutcome.noConfusion hc
  · intro input s hn hfind
    unfold executeQueryStep
    rw [execStmt_genQuery db input s hn, hfind]
    rfl

/-- C7 witness: against the concrete `users`-only database (no table named
`table_name`), the generated query's execution is surfaced as the inline
error message. -/
theorem c7_execution_errors_caught_witness :
    executeQueryStep usersDb (generate_query "show users" []).query =
      .errorMessage "Error executing query: no such table: table_name" :=
  (c7_execution_errors_caught usersDb
      (generate_query "show users" []).query).2.2 "show users" [] (by decide) (by decide)

/-- C8: against a database whose object named `table_name` is a table with
at least one row, executing the query returned by `generate_query` (for the
single-line inputs the text box produces) succeeds and returns the first at
most 5 rows of that table. -/
theorem c8_stub_query_returns_at_most_five (db : Db) (input : String) (s : Schema)
    (o : DbObject) (hn : '\n' ∉ input.data)
    (hfind : db.objects.find? (fun ob => ob.name = "table_name") = some o)
    (hkind : o.kind = "table") (hrows : o.rows ≠ []) :
    executeQueryStep db (generate_query input s).query = .results (o.rows.take 5) ∧
    (o.rows.take 5).length ≤ 5 := by
  constructor
  · unfold executeQueryStep
    rw [execStmt_genQuery db input s hn, hfind]
    simp [hkind]
  · rw [List.length_take]
    exact min_le_left 5 _

/-- C8 witness: the concrete six-row `table_name` table yields exactly its
first five rows. -/
theorem c8_stub_query_returns_at_most_five_witness :
    executeQueryStep stubDb (generate_query "first five" []).query
      = .results (stubTable.rows.take 5) ∧
    (stubTable.rows.take 5).length ≤ 5 :=
  c8_stub_query_returns_at_most_five stubDb "first five" [] stubTable
    (by decide) (by decide) rfl (by decide)

end QueryLens
